import Mathlib

/-!
Verification of the Token Reducer extension core against its specification.

The development shallowly embeds the relevant parts of the source files
`src/summarizer.js`, `src/token-tracker.js` and `src/memory-manager.js`:

* pure functions become Lean functions;
* the mutable chat log becomes an explicit `List ChatMessage` threaded
  through each operation;
* JavaScript exceptions become `Except TRError`;
* the external generator (`ConnectionManagerRequestService.sendRequest`),
  the token counter (`getTokenCountAsync`) and the reasoning parser are
  injected as function-valued configuration fields;
* JavaScript numbers used for token counts and indices become `Nat`,
  relevance scores (which mix counts with a fractional decay penalty)
  become `ℚ`;
* DOM updates, persistence calls (`saveChat`, `saveMetadata`) and the
  lorebook substrate are outside the model: they do not influence the
  values and metadata fields the claims are about.

String helpers (`jsToLower`, `jsTrim`, `splitWs`, `strContains`) are
structural-recursion equivalents of the JavaScript `toLowerCase`,
`trim`, `split(/\s+/)` and `includes` used by the source.  `splitWs`
splits at every whitespace character where `/\s+/` merges runs of
whitespace; the difference only produces extra empty tokens, which never
match any query word of length ≥ 3 and are filtered out by the scoring
loop exactly like in the source.
-/

/-- JS truthiness for an optional string field: `undefined`/missing and
the empty string are falsy. -/
def truthy : Option String → Bool
  | none => false
  | some s => !s.isEmpty

/-- Lowercasing as in JS `toLowerCase` (character-wise). -/
def jsToLower (s : String) : String := String.mk (s.data.map Char.toLower)

/-- Trimming as in JS `trim`: drop whitespace from both ends. -/
def jsTrim (s : String) : String :=
  String.mk (((s.data.dropWhile Char.isWhitespace).reverse.dropWhile Char.isWhitespace).reverse)

/-- Helper for `strContains`: does the first list occur as a prefix of the second? -/
def listPrefixEq : List Char → List Char → Bool
  | [], _ => true
  | _ :: _, [] => false
  | a :: as, b :: bs => a == b && listPrefixEq as bs

/-- Substring test as in JS `hay.includes(needle)`. -/
def strContains (hay needle : String) : Bool :=
  (List.range (hay.data.length + 1)).any fun i => listPrefixEq needle.data (hay.data.drop i)

/-- Splitting at whitespace characters, as used on query and summary texts. -/
def splitWsGo : List Char → List Char → List String
  | [], cur => [String.mk cur.reverse]
  | c :: cs, cur =>
    if c.isWhitespace then String.mk cur.reverse :: splitWsGo cs []
    else splitWsGo cs (c :: cur)

/-- Splitting a string at whitespace (JS `split(/\s+/)` up to inert empty tokens). -/
def splitWs (s : String) : List String := splitWsGo s.data []

/-- A chat message record.  The `tr_*` fields model the entries the
extension reads and writes in the host message's `extra` metadata bag
(`message.extra.tr_summary` and friends in `src/summarizer.js`); an
absent `extra` bag is the state where every optional field is `none`
and the flags are `false`. -/
structure ChatMessage where
  name : String := ""
  mes : String := ""
  is_system : Bool := false
  is_user : Bool := false
  tr_summary : Option String := none
  tr_summarized_at : Option Nat := none
  tr_scene_end : Bool := false
  tr_scene_summary : Option String := none
  tr_scene_start : Option Nat := none
deriving DecidableEq, Repr

/-- Severity levels of the `notify` toasts emitted by the extension. -/
inductive NotifLevel where
  | info
  | warning
  | error
  | success
deriving DecidableEq, Repr

/-- A notification: severity and message text. -/
abbrev Notif := NotifLevel × String

/-- Error taxonomy of the extension (thrown `Error`s in the source plus
the `GenerationError` named by the specification). -/
inductive TRError where
  | rangeError
  | emptyRange
  | valueError
  | genError (msg : String)
deriving DecidableEq, Repr

/-- Configuration of the generation gateway (`generateText` in
`src/summarizer.js`): the selected summarization profile, the external
request service (its raising modelled as `Except.error`), and the host's
optional reasoning parser. -/
structure GenCfg where
  summarization_profile : Option String := none
  sendRequest : String → String → Except String String := fun _ _ => Except.error "no provider"
  parseReasoning : String → Option String := fun _ => none

/-- Embedding of `generateText` (src/summarizer.js lines 57-123).  The
source catches every failure of the underlying call, emits a
notification, and returns the accumulated `result` (still `''`): the
function itself never throws, which the `Except` layer records by
returning `Except.ok` on every path.  Responses are modelled as bare
content strings; rate limiting (a pure delay) has no observable effect
on the returned value. -/
def generateText (g : GenCfg) (chat : List ChatMessage) (content systemPrompt : String) :
    Except TRError (String × List Notif) :=
  if chat.isEmpty then
    Except.ok ("", [(NotifLevel.warning, "Please open a chat first")])
  else
    match g.summarization_profile with
    | none =>
      Except.ok ("", [(NotifLevel.error, "Please select a Summarization Profile in Token Reducer settings")])
    | some _ =>
      match g.sendRequest content systemPrompt with
      | Except.error msg =>
        Except.ok ("", [(NotifLevel.error, "Generation failed: " ++ msg)])
      | Except.ok response =>
        let result :=
          match g.parseReasoning response with
          | some parsed => parsed
          | none => response
        Except.ok (jsTrim result, [])

/-- Result string of `generateText` (it never throws, see
`generateText_isOk`; an error is mapped to the empty string). -/
def genString (g : GenCfg) (chat : List ChatMessage) (content systemPrompt : String) : String :=
  match generateText g chat content systemPrompt with
  | Except.ok (s, _) => s
  | Except.error _ => ""

/-- Chunk-splitting loop of `summarizeInChunks` (src/summarizer.js lines
307-327): greedy packing of units into groups, flushing the current
group when adding the next unit would exceed `maxTokens` (a first unit
is always accepted into an empty group). -/
def buildChunksGo (tc : String → Nat) (maxTokens : Nat) :
    List String → List String → Nat → List (List String)
  | [], currentChunk, _ =>
    if currentChunk.isEmpty then [] else [currentChunk]
  | msg :: rest, currentChunk, currentTokens =>
    let msgTokens := tc msg
    if maxTokens < currentTokens + msgTokens ∧ currentChunk ≠ [] then
      currentChunk :: buildChunksGo tc maxTokens rest [msg] msgTokens
    else
      buildChunksGo tc maxTokens rest (currentChunk ++ [msg]) (currentTokens + msgTokens)

/-- Groups of units produced by the chunking pass. -/
def buildChunks (tc : String → Nat) (maxTokens : Nat) (messages : List String) :
    List (List String) :=
  buildChunksGo tc maxTokens messages [] 0

/-- A group of units joined the way the source joins a chunk (`'\n\n'`). -/
def joinChunk (units : List String) : String := String.intercalate "\n\n" units

/-- Embedding of `summarizeInChunks` (src/summarizer.js lines 303-349)
with the token counter and the summarization function injected: chunk
the units, summarize each chunk, keep the non-empty chunk summaries, and
combine them with a second summarization pass when more than one
remains. -/
def summarizeInChunks (tc : String → Nat) (maxTokens : Nat) (summarizeFn : String → String)
    (messages : List String) : String :=
  let chunks := (buildChunks tc maxTokens messages).map joinChunk
  let chunkSummaries := (chunks.map summarizeFn).filter fun s => !s.isEmpty
  if 1 < chunkSummaries.length then
    summarizeFn (String.intercalate "\n\n---\n\n" chunkSummaries)
  else
    chunkSummaries.headD ""

/-- Settings and collaborators used by the summarization orchestrator.
The two `*_system_prompt` fields are the configured prompt templates
with the `{{content}}` placeholder already stripped, as computed at each
call site in the source. -/
structure OrchCfg where
  gen : GenCfg := {}
  tokenCount : String → Nat := fun _ => 0
  maxContext : Nat := 4096
  now : Nat := 0
  summary_system_prompt : String := ""
  scene_system_prompt : String := ""
  auto_hide_summarized : Bool := false
  keep_recent_count : Nat := 0
  hide_summarized_scenes : Bool := false

/-- Embedding of `autoHideSummarizedMessages` (src/summarizer.js lines
131-170): collect the indices of non-hidden summarized messages in
ascending order and hide all but the most recent `keepRecentCount` of
them (the host's `hideChatMessageRange` sets `is_system`). -/
def autoHideSummarizedMessages (keepRecentCount : Nat) (chat : List ChatMessage) :
    List ChatMessage :=
  let summarizedIndices :=
    ((chat.enum.filter fun p => truthy p.2.tr_summary && !p.2.is_system).map Prod.fst)
  let hideCount := summarizedIndices.length - keepRecentCount
  let indicesToHide := summarizedIndices.take hideCount
  chat.enum.map fun p =>
    if p.1 ∈ indicesToHide ∧ !p.2.is_system then { p.2 with is_system := true } else p.2

/-- Embedding of `summarizeMessage` (src/summarizer.js lines 177-221):
bounds-check, generate a summary of `"name: mes"`, and on a non-empty
result write the `tr_summary`/`tr_summarized_at` metadata and optionally
run the auto-hide batch.  The lorebook write and the display collapse
have no effect on the chat state. -/
def summarizeMessage (cfg : OrchCfg) (chat : List ChatMessage) (mesId : Nat) :
    Except TRError (String × List ChatMessage) :=
  match chat[mesId]? with
  | none => Except.error TRError.rangeError
  | some message =>
    let content := message.name ++ ": " ++ message.mes
    match generateText cfg.gen chat content cfg.summary_system_prompt with
    | Except.error e => Except.error e
    | Except.ok (summary, _) =>
      if summary.isEmpty then
        Except.ok (summary, chat)
      else
        let chat1 := chat.set mesId
          { message with tr_summary := some summary, tr_summarized_at := some cfg.now }
        let chat2 :=
          if cfg.auto_hide_summarized then
            autoHideSummarizedMessages cfg.keep_recent_count chat1
          else chat1
        Except.ok (summary, chat2)

/-- Visible messages of a range rendered as `"name: mes"` lines
(src/summarizer.js lines 238-244). -/
def visibleContents (chat : List ChatMessage) (startId endId : Nat) : List String :=
  (List.range' startId (endId + 1 - startId)).filterMap fun i =>
    match chat[i]? with
    | some msg => if msg.is_system then none else some (msg.name ++ ": " ++ msg.mes)
    | none => none

/-- Embedding of `summarizeScene` (src/summarizer.js lines 229-298):
range checks, concatenation of visible messages, delegation to the
chunking engine when the content exceeds `maxContext - 500` tokens, and
on a non-empty summary the scene metadata write on the end message plus
the optional hiding of the earlier messages of the range. -/
def summarizeScene (cfg : OrchCfg) (chat : List ChatMessage) (startId endId : Nat) :
    Except TRError (String × List ChatMessage) :=
  if chat.length ≤ endId ∨ endId < startId then
    Except.error TRError.rangeError
  else
    let messages := visibleContents chat startId endId
    if messages.isEmpty then
      Except.error TRError.emptyRange
    else
      let content := String.intercalate "\n\n" messages
      let maxTokens := cfg.maxContext - 500
      let finalSummary :=
        if maxTokens < cfg.tokenCount content then
          summarizeInChunks cfg.tokenCount maxTokens
            (fun s => genString cfg.gen chat s cfg.scene_system_prompt) messages
        else
          genString cfg.gen chat content cfg.scene_system_prompt
      if finalSummary.isEmpty then
        Except.ok (finalSummary, chat)
      else
        let chat1 := chat.modify
          (fun m => { m with tr_scene_end := true, tr_scene_summary := some finalSummary,
                             tr_scene_start := some startId, tr_summarized_at := some cfg.now })
          endId
        let chat2 :=
          if cfg.hide_summarized_scenes then
            chat1.enum.map fun p =>
              if startId ≤ p.1 ∧ p.1 < endId then { p.2 with is_system := true } else p.2
          else chat1
        Except.ok (finalSummary, chat2)

/-- Indices collected by the selection loop of `summarizeAllMessages`
(src/summarizer.js lines 435-440): non-system messages without a
(non-empty) `tr_summary`, in ascending order. -/
def indicesToSummarize (chat : List ChatMessage) : List Nat :=
  (List.range chat.length).filter fun i =>
    match chat[i]? with
    | some msg => !msg.is_system && !truthy msg.tr_summary
    | none => false

/-- Embedding of `summarizeAllMessages` (src/summarizer.js lines
427-460): summarize each selected index in order, counting every call
that does not throw and keeping the previous state when one does. -/
def summarizeAllMessages (cfg : OrchCfg) (chat : List ChatMessage) : Nat × List ChatMessage :=
  (indicesToSummarize chat).foldl
    (fun acc mesId =>
      match summarizeMessage cfg acc.2 mesId with
      | Except.ok (_, chat') => (acc.1 + 1, chat')
      | Except.error _ => acc)
    (0, chat)

/-- Per-message step of the `clearAllSummaries` loop (src/summarizer.js
lines 471-498): the cleared message together with how many times the
loop incremented `cleared` on it (once for a truthy `tr_summary`, once
for a truthy `tr_scene_summary`). -/
def clearMsg (m : ChatMessage) : ChatMessage × Nat :=
  let p1 :=
    if truthy m.tr_summary then
      ({ m with tr_summary := none, tr_summarized_at := none }, 1)
    else (m, 0)
  let p2 :=
    if truthy p1.1.tr_scene_summary then
      ({ p1.1 with tr_scene_end := false, tr_scene_summary := none,
                   tr_scene_start := none, tr_summarized_at := none }, 1)
    else (p1.1, 0)
  (p2.1, p1.2 + p2.2)

/-- Embedding of `clearAllSummaries` (src/summarizer.js lines 465-508):
returns the accumulated `cleared` counter and the updated chat. -/
def clearAllSummaries : List ChatMessage → Nat × List ChatMessage
  | [] => (0, [])
  | m :: rest =>
    let head := clearMsg m
    let tail := clearAllSummaries rest
    (head.2 + tail.1, head.1 :: tail.2)

/-- Scan of `autoFillChapters` for the last existing scene end
(src/summarizer.js lines 527-531): the highest index bearing
`tr_scene_end`, if any. -/
def findLastSceneEndIdx (chat : List ChatMessage) : Option Nat :=
  chat.enum.foldl (fun acc p => if p.2.tr_scene_end then some p.1 else acc) none

/-- Defensive scan of `autoFillChapters` inside a candidate block
(src/summarizer.js lines 551-558): the first index in `[lo, hi]` bearing
`tr_scene_end`, if any. -/
def firstSceneEndIn (chat : List ChatMessage) (lo hi : Nat) : Option Nat :=
  (List.range' lo (hi + 1 - lo)).find? fun j =>
    match chat[j]? with
    | some m => m.tr_scene_end
    | none => false

/-- Main loop of `autoFillChapters` (src/summarizer.js lines 540-572).
Every iteration strictly increases `currentBlockStart`, which is bounded
by the (constant) chat length, so fuel `chat.length + 1` always
suffices; the fuel argument only makes the recursion structural. -/
def autoFillLoop (cfg : OrchCfg) (interval : Nat) :
    Nat → List ChatMessage → Nat → Nat → Nat × List ChatMessage
  | 0, chat, _, created => (created, chat)
  | fuel + 1, chat, currentBlockStart, created =>
    if chat.length ≤ currentBlockStart then (created, chat)
    else
      let potentialEnd := currentBlockStart + interval - 1
      if chat.length ≤ potentialEnd then (created, chat)
      else
        match firstSceneEndIn chat currentBlockStart potentialEnd with
        | some j => autoFillLoop cfg interval fuel chat (j + 1) created
        | none =>
          match summarizeScene cfg chat currentBlockStart potentialEnd with
          | Except.ok (_, chat') =>
            autoFillLoop cfg interval fuel chat' (potentialEnd + 1) (created + 1)
          | Except.error _ =>
            autoFillLoop cfg interval fuel chat (currentBlockStart + 1) created

/-- Embedding of `autoFillChapters` (src/summarizer.js lines 514-581):
reject intervals below 5, then walk forward in blocks of `interval`
messages from just after the last existing scene end. -/
def autoFillChapters (cfg : OrchCfg) (interval : Nat) (chat : List ChatMessage) :
    Except TRError (Nat × List ChatMessage) :=
  if interval < 5 then Except.error TRError.valueError
  else
    let startScan :=
      match findLastSceneEndIdx chat with
      | some i => i + 1
      | none => 0
    Except.ok (autoFillLoop cfg interval (chat.length + 1) chat startScan 0)

/-- Scene-end metadata of a chat: the indices bearing `tr_scene_end`
together with their recorded `tr_scene_start`. -/
def sceneEnds (chat : List ChatMessage) : List (Nat × Option Nat) :=
  chat.enum.filterMap fun p =>
    if p.2.tr_scene_end then some (p.1, p.2.tr_scene_start) else none

/-- Per-message row of `getTokenBreakdown` (src/token-tracker.js lines
65-95). -/
structure BreakdownItem where
  mesId : Nat
  tokens : Nat
  hasSummary : Bool
  summaryTokens : Nat
  savings : Int
deriving DecidableEq, Repr

/-- Embedding of `getTokenBreakdown` (src/token-tracker.js lines
65-95): one row per non-system message. -/
def getTokenBreakdown (tc : String → Nat) (chat : List ChatMessage) : List BreakdownItem :=
  (chat.enum.filter fun p => !p.2.is_system).map fun p =>
    let tokens := tc p.2.mes
    let hasSummary := truthy p.2.tr_summary
    let summaryTokens := if hasSummary then tc (p.2.tr_summary.getD "") else 0
    { mesId := p.1, tokens := tokens, hasSummary := hasSummary, summaryTokens := summaryTokens,
      savings := if hasSummary then (tokens : Int) - (summaryTokens : Int) else 0 }

/-- Rounding as in JS `Math.round`: floor of the value plus one half. -/
def jround (q : ℚ) : ℤ := ⌊q + 1 / 2⌋

/-- Aggregate returned by `getTotalSavings` (src/token-tracker.js lines
100-130). -/
structure Savings where
  original : Nat
  current : Nat
  saved : Int
  savedPercent : Int
  summarizedCount : Nat
  potentialSaved : Int
  totalSummaries : Nat
deriving DecidableEq, Repr

/-- Embedding of `getTotalSavings` (src/token-tracker.js lines 100-130),
with the `replace_with_summary` setting passed explicitly. -/
def getTotalSavings (tc : String → Nat) (replace_with_summary : Bool)
    (chat : List ChatMessage) : Savings :=
  let breakdown := getTokenBreakdown tc chat
  let totalOriginal := (breakdown.map (·.tokens)).sum
  let totalWithSummaries :=
    (breakdown.map fun item =>
      if item.hasSummary && replace_with_summary then item.summaryTokens else item.tokens).sum
  { original := totalOriginal,
    current := totalWithSummaries,
    saved := (totalOriginal : Int) - (totalWithSummaries : Int),
    savedPercent :=
      if 0 < totalOriginal then
        jround ((1 - (totalWithSummaries : ℚ) / (totalOriginal : ℚ)) * 100)
      else 0,
    summarizedCount := breakdown.countP fun item => item.hasSummary && replace_with_summary,
    potentialSaved := (breakdown.map (·.savings)).sum,
    totalSummaries := (breakdown.filter (·.hasSummary)).length }

/-- A cached memory entry (`memoryCache` element in
src/memory-manager.js). -/
structure Memory where
  mtype : String := "custom"
  mesId : Option Nat := none
  summary : String := ""
  keywords : List String := []
  timestamp : Nat := 0
deriving DecidableEq, Repr

/-- Settings and collaborators of the retrieval function
(`retrieveRelevantMemories` in src/memory-manager.js): the LLM query
generation switch and its (abstract) outcome, the result cap, and the
current time used for the age penalty. -/
structure RetrievalCfg where
  enable_llm_retrieval : Bool := false
  llmQuery : Option String := none
  max_retrieved_memories : Nat := 5
  now : Nat := 0

/-- Most recent visible user message's body, the fallback query source
(src/memory-manager.js lines 506-514). -/
def lastUserMes (chat : List ChatMessage) : Option String :=
  (chat.reverse.find? fun m => m.is_user && !m.is_system).map (·.mes)

/-- Match count of the scoring loop (src/memory-manager.js lines
526-531): every query word of length ≥ 3 occurring as a substring of
some word of the entry's summary increments the score once, so
occurrences in the query count with multiplicity. -/
def memoryMatchCount (queryWords : List String) (m : Memory) : Nat :=
  let summaryWords := splitWs (jsToLower m.summary)
  queryWords.countP fun word =>
    decide (3 ≤ word.length) && summaryWords.any fun w => strContains w word

/-- Relevance score of one cached entry (src/memory-manager.js lines
522-538): the match count minus the decay penalty of one tenth per day
of age. -/
def memoryScore (now : Nat) (queryWords : List String) (m : Memory) : ℚ :=
  (memoryMatchCount queryWords m : ℚ) -
    ((now : ℚ) - (m.timestamp : ℚ)) / (1000 * 60 * 60 * 24) * (1 / 10)

/-- Stable insertion into a descending-sorted list: the new element goes
after every element of greater-or-equal key, matching the stable JS
`sort((a, b) => b.score - a.score)`. -/
def insertDesc {α : Type} (key : α → ℚ) (x : α) : List α → List α
  | [] => [x]
  | y :: ys => if key y < key x then x :: y :: ys else y :: insertDesc key x ys

/-- Stable sort by descending key (elements inserted in input order). -/
def sortByDesc {α : Type} (key : α → ℚ) (l : List α) : List α :=
  l.foldl (fun acc x => insertDesc key x acc) []

/-- Scoring/filtering/sorting/truncation pipeline of
`retrieveRelevantMemories` (src/memory-manager.js lines 520-546) for an
already-determined list of query words. -/
def retrieveScored (cfg : RetrievalCfg) (cache : List Memory) (queryWords : List String) :
    List Memory :=
  let scored := cache.map fun memory => (memory, memoryScore cfg.now queryWords memory)
  let positive := scored.filter fun s => decide (0 < s.2)
  ((sortByDesc (·.2) positive).take cfg.max_retrieved_memories).map Prod.fst

/-- Query-resolution steps of `retrieveRelevantMemories`
(src/memory-manager.js lines 495-516): the optional LLM-generated query
(only when enabled and no query was passed), then the fallback to the
most recent visible user message when the query is still falsy. -/
def effectiveQuery (cfg : RetrievalCfg) (chat : List ChatMessage) (queryText : Option String) :
    Option String :=
  let q1 :=
    if cfg.enable_llm_retrieval && !truthy queryText then
      match cfg.llmQuery with
      | some l => if l.isEmpty then queryText else some l
      | none => queryText
    else queryText
  if truthy q1 then q1
  else
    match lastUserMes chat with
    | some mes => some mes
    | none => q1

/-- Embedding of `retrieveRelevantMemories` (src/memory-manager.js lines
491-547): resolve the query, return `[]` when it is still falsy, and
otherwise run the scoring pipeline on its lower-cased words. -/
def retrieveRelevantMemories (cfg : RetrievalCfg) (cache : List Memory)
    (chat : List ChatMessage) (queryText : Option String) : List Memory :=
  match effectiveQuery cfg chat queryText with
  | none => []
  | some q =>
    if q.isEmpty then []
    else retrieveScored cfg cache (splitWs (jsToLower q))

/-- Match count as claim C4 words it: the number of DISTINCT query
words of length ≥ 3 that occur in the summary. -/
def claimMatchCountDistinct (queryWords : List String) (m : Memory) : Nat :=
  let summaryWords := splitWs (jsToLower m.summary)
  queryWords.dedup.countP fun word =>
    decide (3 ≤ word.length) && summaryWords.any fun w => strContains w word

/-- Variant of `memoryScore` modelled from the claim wording for C4
(distinct-word count instead of the source's multiplicity count). -/
def claimScoreDistinct (now : Nat) (queryWords : List String) (m : Memory) : ℚ :=
  (claimMatchCountDistinct queryWords m : ℚ) -
    ((now : ℚ) - (m.timestamp : ℚ)) / (1000 * 60 * 60 * 24) * (1 / 10)

/-- Retrieval pipeline as claim C4 states it (distinct-word scoring,
otherwise identical to the source pipeline). -/
def claimRetrieveDistinct (cfg : RetrievalCfg) (cache : List Memory)
    (chat : List ChatMessage) (queryText : Option String) : List Memory :=
  match effectiveQuery cfg chat queryText with
  | none => []
  | some q =>
    if q.isEmpty then []
    else
      let queryWords := splitWs (jsToLower q)
      let scored := cache.map fun memory => (memory, claimScoreDistinct cfg.now queryWords memory)
      let positive := scored.filter fun s => decide (0 < s.2)
      ((sortByDesc (·.2) positive).take cfg.max_retrieved_memories).map Prod.fst

/-- A chapter of the timeline (`timelineData` element in
src/memory-manager.js). -/
structure Chapter where
  summary : String := ""
  startMsgId : Nat := 0
  endMsgId : Nat := 0
deriving DecidableEq, Repr

/-- Result shape of `getChapter`: the chapter's data together with its
1-indexed number. -/
structure ChapterView where
  summary : String
  startMsgId : Nat
  endMsgId : Nat
  number : Nat
deriving DecidableEq, Repr

/-- Embedding of `getChapter` (src/memory-manager.js lines 119-124). -/
def getChapter (timelineData : List Chapter) (chapterNumber : Nat) : Option ChapterView :=
  if chapterNumber < 1 ∨ timelineData.length < chapterNumber then none
  else
    match timelineData[chapterNumber - 1]? with
    | some c =>
      some { summary := c.summary, startMsgId := c.startMsgId, endMsgId := c.endMsgId,
             number := chapterNumber }
    | none => none

/-- Embedding of `addChapter` (src/memory-manager.js lines 132-142):
append and return the new chapter count. -/
def addChapter (timelineData : List Chapter) (summary : String) (startMsgId endMsgId : Nat) :
    Nat × List Chapter :=
  let newTimeline :=
    timelineData ++ [{ summary := summary, startMsgId := startMsgId, endMsgId := endMsgId }]
  (newTimeline.length, newTimeline)

/-- Embedding of `updateChapter` (src/memory-manager.js lines 149-156):
replace only the summary of the addressed chapter, report failure on an
out-of-range number. -/
def updateChapter (timelineData : List Chapter) (chapterNumber : Nat) (newSummary : String) :
    Bool × List Chapter :=
  if chapterNumber < 1 ∨ timelineData.length < chapterNumber then (false, timelineData)
  else
    (true, List.modify (fun c => { c with summary := newSummary }) (chapterNumber - 1) timelineData)

/-- Embedding of `removeChapter` (src/memory-manager.js lines 162-170):
splice out the addressed chapter and return it, `none` on an
out-of-range number. -/
def removeChapter (timelineData : List Chapter) (chapterNumber : Nat) :
    Option Chapter × List Chapter :=
  if chapterNumber < 1 ∨ timelineData.length < chapterNumber then (none, timelineData)
  else (timelineData[chapterNumber - 1]?, timelineData.eraseIdx (chapterNumber - 1))

/-- Embedding of `getChapterCount` (src/memory-manager.js lines 188-190). -/
def getChapterCount (timelineData : List Chapter) : Nat := timelineData.length

/-! ### Concrete instances used by scenario conjuncts, witnesses and counterexamples -/

/-- A single plain user message. -/
def userMsg : ChatMessage := { name := "User", mes := "hello", is_user := true }

/-- A one-message chat. -/
def oneMsgChat : List ChatMessage := [userMsg]

/-- Gateway configuration without a summarization profile (the
underlying service would succeed if it were reached). -/
def genCfgNoProfile : GenCfg :=
  { summarization_profile := none, sendRequest := fun _ _ => Except.ok "S" }

/-- Orchestrator configuration on top of `genCfgNoProfile`. -/
def cfgNoProfile : OrchCfg := { gen := genCfgNoProfile }

/-- Three text units of two characters each. -/
def demoUnits : List String := ["aa", "bb", "cc"]

/-- A chat with one summarized message, for the token-accounting witness. -/
def chatC2 : List ChatMessage := [{ name := "A", mes := "hello", tr_summary := some "h" }]

/-- Gateway configuration whose underlying call always succeeds with "S". -/
def scenGenCfg : GenCfg :=
  { summarization_profile := some "profile", sendRequest := fun _ _ => Except.ok "S" }

/-- Orchestrator configuration for the auto-fill scenario: every text
counts one token, large context, no hiding. -/
def scenCfg : OrchCfg := { gen := scenGenCfg, tokenCount := fun _ => 1, maxContext := 10000 }

/-- A 45-message chat with no scene metadata. -/
def chat45 : List ChatMessage := List.replicate 45 { name := "A", mes := "m" }

/-- Result of `autoFillChapters 20` on the 45-message chat. -/
def autoFill45 : Nat × List ChatMessage :=
  ((autoFillChapters scenCfg 20 chat45).toOption).getD (0, [])

/-- A message bearing both a message summary and a scene summary. -/
def bothMsg : ChatMessage :=
  { name := "A", mes := "m", tr_summary := some "s", tr_summarized_at := some 5,
    tr_scene_end := true, tr_scene_summary := some "sc", tr_scene_start := some 0 }

/-- A message with no metadata at all. -/
def plainMsg : ChatMessage := { name := "A", mes := "m" }

/-- A one-message chat with no metadata. -/
def plainChat : List ChatMessage := [plainMsg]

/-- Orchestrator configuration whose generator always returns the empty
string (a generation failure as the source surfaces it). -/
def cfgEmptyGen : OrchCfg :=
  { gen := { summarization_profile := some "profile", sendRequest := fun _ _ => Except.ok "" } }

/-- A cached memory entry mentioning "cat". -/
def memA : Memory := { mtype := "message", mesId := some 0, summary := "cat" }

/-- A cached memory entry mentioning "big". -/
def memB : Memory := { mtype := "message", mesId := some 1, summary := "big" }

/-- Retrieval configuration with LLM query generation disabled. -/
def cexRetCfg : RetrievalCfg := {}

/-- A chat whose last visible user message is "dragon". -/
def witChat : List ChatMessage := [{ name := "U", mes := "dragon", is_user := true }]

/-- First chapter of a three-chapter timeline. -/
def ch1 : Chapter := { summary := "one", startMsgId := 0, endMsgId := 9 }

/-- Second chapter of a three-chapter timeline. -/
def ch2 : Chapter := { summary := "two", startMsgId := 10, endMsgId := 19 }

/-- Third chapter of a three-chapter timeline. -/
def ch3 : Chapter := { summary := "three", startMsgId := 20, endMsgId := 29 }

/-- A three-chapter timeline. -/
def tl3 : List Chapter := [ch1, ch2, ch3]

/-! ### Shared lemmas -/

/-- The generation gateway never throws: every failure mode is caught in
the source and surfaces as an `Except.ok` carrying an empty result. -/
theorem generateText_isOk (g : GenCfg) (chat : List ChatMessage) (content systemPrompt : String) :
    ∃ r, generateText g chat content systemPrompt = Except.ok r := by
  unfold generateText
  split
  · exact ⟨_, rfl⟩
  · split
    · exact ⟨_, rfl⟩
    · split
      · exact ⟨_, rfl⟩
      · exact ⟨_, rfl⟩

/-- Rounding is monotone. -/
theorem jround_mono {a b : ℚ} (h : a ≤ b) : jround a ≤ jround b :=
  Int.floor_le_floor (by linarith)

/-- Rounding 100 gives 100. -/
theorem jround_hundred : jround 100 = 100 := by
  unfold jround
  norm_num

/-- Invariant of the greedy chunking loop: every emitted group fits the
budget or is a single unit, provided the accumulator does. -/
theorem buildChunksGo_bounded (tc : String → Nat) (maxTokens : Nat) :
    ∀ (units currentChunk : List String) (currentTokens : Nat),
      currentTokens = (currentChunk.map tc).sum →
      (currentChunk = [] ∨ currentChunk.length = 1 ∨ (currentChunk.map tc).sum ≤ maxTokens) →
      ∀ g ∈ buildChunksGo tc maxTokens units currentChunk currentTokens,
        (g.map tc).sum ≤ maxTokens ∨ g.length = 1 := by
  intro units
  induction units with
  | nil =>
    intro cur curTok ht hinv g hg
    simp only [buildChunksGo] at hg
    split at hg
    · simp at hg
    · rename_i hne
      simp only [List.mem_singleton] at hg
      subst hg
      rcases hinv with h | h | h
      · rw [h] at hne
        simp at hne
      · exact Or.inr h
      · exact Or.inl h
  | cons m rest ih =>
    intro cur curTok ht hinv g hg
    simp only [buildChunksGo] at hg
    split at hg
    · rename_i hcond
      rcases List.mem_cons.mp hg with rfl | hg'
      · rcases hinv with h | h | h
        · exact absurd h hcond.2
        · exact Or.inr h
        · exact Or.inl h
      · exact ih [m] (tc m) (by simp) (Or.inr (Or.inl rfl)) g hg'
    · rename_i hcond
      refine ih (cur ++ [m]) (curTok + tc m) ?_ ?_ g hg
      · simp [ht]
      · rcases Decidable.em (cur = []) with hnil | hnil
        · subst hnil
          exact Or.inr (Or.inl (by simp))
        · have hle : curTok + tc m ≤ maxTokens := by
          -- the flush condition failed and the chunk is non-empty
            rcases not_and_or.mp hcond with h | h
            · omega
            · exact absurd hnil h
          refine Or.inr (Or.inr ?_)
          simp only [List.map_append, List.sum_append, List.map_cons, List.map_nil,
            List.sum_cons, List.sum_nil]
          omega

/-- Filtering out empty strings of a map whose outputs are all empty
yields the empty list. -/
theorem filter_nonempty_of_all_empty {fn : String → String} :
    ∀ cs : List String, (∀ c ∈ cs, fn c = "") →
      ((cs.map fn).filter fun s => !s.isEmpty) = [] := by
  intro cs
  induction cs with
  | nil => intro _; rfl
  | cons c rest ih =>
    intro h
    have hc : fn c = "" := h c (by simp)
    have ht : ((rest.map fn).filter fun s => !s.isEmpty) = [] :=
      ih fun d hd => h d (by simp [hd])
    simp [hc, ht, show ("" : String).isEmpty = true from rfl]

/-! ### Claim theorems -/

/-- C1: when the units' total token count exceeds the budget, the
chunking pass never forms a group whose cumulative token count exceeds
the budget unless that group is a single unit whose own count already
exceeds it, and `summarizeInChunks` returns the empty string when the
summarize function produced no output on any group. -/
theorem summarizeInChunks_spec (tc : String → Nat) (maxTokens : Nat) (units : List String)
    (_htotal : maxTokens < (units.map tc).sum) :
    (∀ g ∈ buildChunks tc maxTokens units,
        (g.map tc).sum ≤ maxTokens ∨ ∃ u, g = [u] ∧ maxTokens < tc u) ∧
    ∀ summarizeFn : String → String,
      (∀ g ∈ buildChunks tc maxTokens units, summarizeFn (joinChunk g) = "") →
      summarizeInChunks tc maxTokens summarizeFn units = "" := by
  constructor
  · intro g hg
    rcases buildChunksGo_bounded tc maxTokens units [] 0 rfl (Or.inl rfl) g hg with h | h
    · exact Or.inl h
    · match g, h with
      | [u], _ =>
        by_cases hu : tc u ≤ maxTokens
        · exact Or.inl (by simpa using hu)
        · exact Or.inr ⟨u, rfl, by omega⟩
  · intro fn hfn
    unfold summarizeInChunks
    have hnil : (((buildChunks tc maxTokens units).map joinChunk).map fn).filter
        (fun s => !s.isEmpty) = [] := by
      apply filter_nonempty_of_all_empty
      intro c hc
      obtain ⟨g, hg, rfl⟩ := List.mem_map.mp hc
      exact hfn g hg
    simp only [hnil]
    rfl

/-- Witness for C1 at a concrete input: three two-character units with
token counter `String.length` and budget 3 (total 6 exceeds the
budget); with a summarize function producing no output, the result is
empty. -/
theorem summarizeInChunks_witness :
    summarizeInChunks String.length 3 (fun _ => "") demoUnits = "" :=
  (summarizeInChunks_spec String.length 3 demoUnits (by decide)).2 (fun _ => "") (fun _ _ => rfl)

/-- Arithmetic core of the token-accounting claim, stated for the two
totals the source computes. -/
theorem savings_percent_core (o w : Nat) :
    ((w : Int) = (o : Int) - ((o : Int) - (w : Int))) ∧
    (0 < o →
      (if 0 < o then jround ((1 - (w : ℚ) / (o : ℚ)) * 100) else 0) =
        jround (100 * ((((o : Int) - (w : Int)) : Int) : ℚ) / (o : ℚ))) ∧
    (o = 0 → (if 0 < o then jround ((1 - (w : ℚ) / (o : ℚ)) * 100) else 0) = 0) ∧
    (if 0 < o then jround ((1 - (w : ℚ) / (o : ℚ)) * 100) else 0) ≤ 100 := by
    refine ⟨by omega, ?_, ?_, ?_⟩
    · intro ho
      rw [if_pos ho]
      congr 1
      have hoQ : ((o : ℚ)) ≠ 0 := by
        exact_mod_cast Nat.pos_iff_ne_zero.mp ho
      push_cast
      field_simp
      ring
    · intro h0
      rw [if_neg (by omega)]
    · split
      · rename_i ho
        have harg : (1 - (w : ℚ) / (o : ℚ)) * 100 ≤ 100 := by
          have hw : (0 : ℚ) ≤ (w : ℚ) / (o : ℚ) := by positivity
          nlinarith
        calc jround ((1 - (w : ℚ) / (o : ℚ)) * 100) ≤ jround 100 := jround_mono harg
          _ = 100 := jround_hundred
      · norm_num

/-- C2: token accounting satisfies `current = original - saved` exactly,
`savedPercent` is the JS rounding of `100 * saved / original` when the
original total is positive and 0 when it is 0, and `savedPercent` never
exceeds 100. -/
theorem getTotalSavings_spec (tc : String → Nat) (replace : Bool) (chat : List ChatMessage) :
    ((getTotalSavings tc replace chat).current : Int) =
      ((getTotalSavings tc replace chat).original : Int) - (getTotalSavings tc replace chat).saved ∧
    (0 < (getTotalSavings tc replace chat).original →
      (getTotalSavings tc replace chat).savedPercent =
        jround (100 * ((getTotalSavings tc replace chat).saved : ℚ) /
          ((getTotalSavings tc replace chat).original : ℚ))) ∧
    ((getTotalSavings tc replace chat).original = 0 →
      (getTotalSavings tc replace chat).savedPercent = 0) ∧
    (getTotalSavings tc replace chat).savedPercent ≤ 100 := by
  have h := savings_percent_core
    ((getTokenBreakdown tc chat).map fun item => item.tokens).sum
    ((getTokenBreakdown tc chat).map fun item =>
      if item.hasSummary && replace then item.summaryTokens else item.tokens).sum
  exact h

/-- Witness for C2 at a concrete input: a one-message chat with a
summary, token counter `String.length` and replacement active has a
positive original total, so the rounding identity applies. -/
theorem getTotalSavings_witness :
    (getTotalSavings String.length true chatC2).savedPercent =
      jround (100 * ((getTotalSavings String.length true chatC2).saved : ℚ) /
        ((getTotalSavings String.length true chatC2).original : ℚ)) :=
  (getTotalSavings_spec String.length true chatC2).2.1 (by decide)

/-- C3: `autoFillChapters` fails with the value error for every interval
below 5; on a 45-message chat with no pre-existing scene ends and a
succeeding generator, interval 20 creates exactly two scene summaries
covering messages 0-19 and 20-39 and leaves messages 40-44 untouched. -/
theorem autoFillChapters_spec :
    (∀ (cfg : OrchCfg) (interval : Nat) (chat : List ChatMessage), interval < 5 →
      autoFillChapters cfg interval chat = Except.error TRError.valueError) ∧
    autoFillChapters scenCfg 20 chat45 = Except.ok autoFill45 ∧
    autoFill45.1 = 2 ∧
    sceneEnds autoFill45.2 = [(19, some 0), (39, some 20)] ∧
    ((autoFill45.2.drop 40).all fun m =>
      !m.tr_scene_end && !truthy m.tr_summary && !truthy m.tr_scene_summary) = true ∧
    autoFill45.2.length = 45 := by
  refine ⟨?_, by rfl, by decide, by decide, by decide, by decide⟩
  intro cfg interval chat h
  unfold autoFillChapters
  rw [if_pos h]

/-- Witness for C3 at a concrete input: interval 3 on the 45-message
chat is rejected. -/
theorem autoFillChapters_witness :
    autoFillChapters scenCfg 3 chat45 = Except.error TRError.valueError :=
  autoFillChapters_spec.1 scenCfg 3 chat45 (by decide)

/-- C5: for a valid message index, when the generator fails or produces
an empty result, `summarizeMessage` returns the empty string without an
exception and leaves the chat (in particular the message's summary
metadata) exactly as it was. -/
theorem summarizeMessage_failure_noop (cfg : OrchCfg) (chat : List ChatMessage) (mesId : Nat)
    (message : ChatMessage) (hmes : chat[mesId]? = some message)
    (hgen : genString cfg.gen chat (message.name ++ ": " ++ message.mes)
      cfg.summary_system_prompt = "") :
    summarizeMessage cfg chat mesId = Except.ok ("", chat) := by
  obtain ⟨⟨s, notifs⟩, hok⟩ := generateText_isOk cfg.gen chat
    (message.name ++ ": " ++ message.mes) cfg.summary_system_prompt
  have hs : s = "" := by
    unfold genString at hgen
    rw [hok] at hgen
    exact hgen
  subst hs
  unfold summarizeMessage
  simp only [hmes, hok]
  rfl

/-- Witness for C5 at a concrete input: with no summarization profile
the generator yields the empty string and the one-message chat is
returned unchanged. -/
theorem summarizeMessage_failure_witness :
    summarizeMessage cfgNoProfile oneMsgChat 0 = Except.ok ("", oneMsgChat) :=
  summarizeMessage_failure_noop cfgNoProfile oneMsgChat 0 userMsg rfl rfl

/-- C6 counterexample: with no summarization profile configured the
gateway does not fail with any error - it returns normally (with an
empty result and an error notification), so the claimed
`GenerationError` failure does not happen. -/
theorem generateText_no_failure_cex :
    ¬ ∃ e, generateText genCfgNoProfile oneMsgChat "content" "instructions" =
      Except.error e := by
  rintro ⟨e, he⟩
  rw [show generateText genCfgNoProfile oneMsgChat "content" "instructions" =
      Except.ok ("", [(NotifLevel.error,
        "Please select a Summarization Profile in Token Reducer settings")]) from rfl] at he
  exact Except.noConfusion he

/-- C6 amended: when no summarization profile is configured, when the
host reports no active conversation, or when the underlying call raises,
the gateway returns the empty string together with at least one
notification instead of failing. -/
theorem generateText_degrades_spec (g : GenCfg) (chat : List ChatMessage)
    (content systemPrompt : String)
    (h : chat = [] ∨ g.summarization_profile = none ∨
      ∃ msg, g.sendRequest content systemPrompt = Except.error msg) :
    ∃ notifs, generateText g chat content systemPrompt = Except.ok ("", notifs) ∧
      notifs ≠ [] := by
  unfold generateText
  by_cases hchat : chat.isEmpty
  · rw [if_pos hchat]
    exact ⟨_, rfl, by simp⟩
  · rw [if_neg hchat]
    rcases h with h | h | h
    · subst h
      simp at hchat
    · simp only [h]
      exact ⟨_, rfl, by simp⟩
    · obtain ⟨msg, hm⟩ := h
      cases hp : g.summarization_profile with
      | none => exact ⟨_, rfl, by simp⟩
      | some p =>
        simp only [hm]
        exact ⟨_, rfl, by simp⟩

/-- Witness for C6 at a concrete input: the unconfigured-profile case on
the one-message chat. -/
theorem generateText_degrades_witness :
    ∃ notifs, generateText genCfgNoProfile oneMsgChat "content" "instructions" =
      Except.ok ("", notifs) ∧ notifs ≠ [] :=
  generateText_degrades_spec genCfgNoProfile oneMsgChat "content" "instructions"
    (Or.inr (Or.inl rfl))

/-- Number of `cleared` increments one message contributes: one per
truthy summary kind. -/
theorem clearMsg_count (m : ChatMessage) :
    (clearMsg m).2 =
      (if truthy m.tr_summary then 1 else 0) +
        (if truthy m.tr_scene_summary then 1 else 0) := by
  by_cases h1 : truthy m.tr_summary <;> by_cases h2 : truthy m.tr_scene_summary <;>
    simp [clearMsg, h1, h2]

/-- The `cleared` counter accumulated over a chat. -/
theorem clearAllSummaries_fst (chat : List ChatMessage) :
    (clearAllSummaries chat).1 =
      chat.countP (fun m => truthy m.tr_summary) +
        chat.countP (fun m => truthy m.tr_scene_summary) := by
  induction chat with
  | nil => rfl
  | cons m rest ih =>
    have : (clearAllSummaries (m :: rest)).1 = (clearMsg m).2 + (clearAllSummaries rest).1 := rfl
    rw [this, clearMsg_count, ih, List.countP_cons, List.countP_cons]
    omega

/-- The cleared chat is the message-wise clearing of the input chat. -/
theorem clearAllSummaries_snd (chat : List ChatMessage) :
    (clearAllSummaries chat).2 = chat.map fun m => (clearMsg m).1 := by
  induction chat with
  | nil => rfl
  | cons m rest ih =>
    have : (clearAllSummaries (m :: rest)).2 = (clearMsg m).1 :: (clearAllSummaries rest).2 := rfl
    rw [this, ih, List.map_cons]

/-- C7 amended: `clearAllSummaries` removes `summary`/`summarized_at`
from every message with a non-empty summary and
`scene_end`/`scene_summary`/`scene_start`/`summarized_at` from every
message with a non-empty scene summary, leaves all other fields intact,
and returns the number of summaries removed - a message bearing both a
message summary and a scene summary counts twice. -/
theorem clearAllSummaries_spec (chat : List ChatMessage) :
    (clearAllSummaries chat).1 =
      chat.countP (fun m => truthy m.tr_summary) +
        chat.countP (fun m => truthy m.tr_scene_summary) ∧
    (clearAllSummaries chat).2.length = chat.length ∧
    ∀ (i : Nat) (m : ChatMessage), chat[i]? = some m →
      ∃ m' : ChatMessage, (clearAllSummaries chat).2[i]? = some m' ∧
        m'.name = m.name ∧ m'.mes = m.mes ∧
        m'.is_system = m.is_system ∧ m'.is_user = m.is_user ∧
        (truthy m.tr_summary = true → m'.tr_summary = none) ∧
        (truthy m.tr_summary = false → m'.tr_summary = m.tr_summary) ∧
        (truthy m.tr_scene_summary = true →
          m'.tr_scene_summary = none ∧ m'.tr_scene_end = false ∧ m'.tr_scene_start = none) ∧
        (truthy m.tr_scene_summary = false →
          m'.tr_scene_summary = m.tr_scene_summary ∧ m'.tr_scene_end = m.tr_scene_end ∧
            m'.tr_scene_start = m.tr_scene_start) ∧
        ((truthy m.tr_summary = true ∨ truthy m.tr_scene_summary = true) →
          m'.tr_summarized_at = none) ∧
        (truthy m.tr_summary = false → truthy m.tr_scene_summary = false →
          m'.tr_summarized_at = m.tr_summarized_at) := by
  refine ⟨clearAllSummaries_fst chat, ?_, ?_⟩
  · rw [clearAllSummaries_snd]
    simp
  · intro i m hm
    refine ⟨(clearMsg m).1, ?_, ?_⟩
    · rw [clearAllSummaries_snd, List.getElem?_map, hm]
      rfl
    · by_cases h1 : truthy m.tr_summary <;> by_cases h2 : truthy m.tr_scene_summary <;>
        simp [clearMsg, h1, h2]

/-- C7 counterexample: on a one-message chat whose message bears both a
message summary and a scene summary, `clearAllSummaries` returns 2 - it
counts summaries removed, not messages touched. -/
theorem clearAllSummaries_count_cex :
    (clearAllSummaries [bothMsg]).1 = 2 ∧ ([bothMsg] : List ChatMessage).length = 1 := by
  decide

/-- Witness for C7 at a concrete input: the per-message clearing facts
on the doubly-summarized message. -/
theorem clearAllSummaries_witness :
    ∃ m' : ChatMessage, (clearAllSummaries [bothMsg]).2[0]? = some m' ∧
      m'.name = bothMsg.name ∧ m'.mes = bothMsg.mes ∧
      m'.is_system = bothMsg.is_system ∧ m'.is_user = bothMsg.is_user ∧
      (truthy bothMsg.tr_summary = true → m'.tr_summary = none) ∧
      (truthy bothMsg.tr_summary = false → m'.tr_summary = bothMsg.tr_summary) ∧
      (truthy bothMsg.tr_scene_summary = true →
        m'.tr_scene_summary = none ∧ m'.tr_scene_end = false ∧ m'.tr_scene_start = none) ∧
      (truthy bothMsg.tr_scene_summary = false →
        m'.tr_scene_summary = bothMsg.tr_scene_summary ∧ m'.tr_scene_end = bothMsg.tr_scene_end ∧
          m'.tr_scene_start = bothMsg.tr_scene_start) ∧
      ((truthy bothMsg.tr_summary = true ∨ truthy bothMsg.tr_scene_summary = true) →
        m'.tr_summarized_at = none) ∧
      (truthy bothMsg.tr_summary = false → truthy bothMsg.tr_scene_summary = false →
        m'.tr_summarized_at = bothMsg.tr_summarized_at) :=
  (clearAllSummaries_spec [bothMsg]).2.2 0 bothMsg rfl

/-- The auto-hide batch does not change the chat length. -/
theorem autoHideSummarizedMessages_length (k : Nat) (chat : List ChatMessage) :
    (autoHideSummarizedMessages k chat).length = chat.length := by
  unfold autoHideSummarizedMessages
  rw [List.length_map, List.enum_length]

/-- A summarize call at a valid index returns normally and preserves the
chat length. -/
theorem summarizeMessage_ok_of_lt (cfg : OrchCfg) (chat : List ChatMessage) (mesId : Nat)
    (h : mesId < chat.length) :
    ∃ s chat', summarizeMessage cfg chat mesId = Except.ok (s, chat') ∧
      chat'.length = chat.length := by
  have hm : chat[mesId]? = some chat[mesId] := List.getElem?_eq_getElem h
  obtain ⟨⟨s, notifs⟩, hok⟩ := generateText_isOk cfg.gen chat
    (chat[mesId].name ++ ": " ++ chat[mesId].mes) cfg.summary_system_prompt
  unfold summarizeMessage
  simp only [hm, hok]
  by_cases hs : s.isEmpty
  · exact ⟨s, chat, by rw [if_pos hs], rfl⟩
  · rw [if_neg hs]
    by_cases hauto : cfg.auto_hide_summarized
    · refine ⟨s, _, by rw [if_pos hauto], ?_⟩
      rw [autoHideSummarizedMessages_length, List.length_set]
    · refine ⟨s, _, by rw [if_neg hauto], ?_⟩
      rw [List.length_set]

/-- The batch loop of `summarizeAllMessages` counts one per processed
index when every index stays in bounds. -/
theorem summarizeAll_foldl_count (cfg : OrchCfg) :
    ∀ (idxs : List Nat) (chat : List ChatMessage) (acc : Nat),
      (∀ i ∈ idxs, i < chat.length) →
      (idxs.foldl
        (fun acc mesId =>
          match summarizeMessage cfg acc.2 mesId with
          | Except.ok (_, chat') => (acc.1 + 1, chat')
          | Except.error _ => acc)
        (acc, chat)).1 = acc + idxs.length := by
  intro idxs
  induction idxs with
  | nil => intro chat acc _; simp
  | cons i rest ih =>
    intro chat acc hbound
    obtain ⟨s, chat', hok, hlen⟩ :=
      summarizeMessage_ok_of_lt cfg chat i (hbound i (by simp))
    simp only [List.foldl_cons, hok]
    rw [ih chat' (acc + 1) fun j hj => by rw [hlen]; exact hbound j (by simp [hj])]
    simp only [List.length_cons]
    omega

/-- Membership in the selection of `summarizeAllMessages`: exactly the
in-range indices of non-system messages without a (non-empty) summary. -/
theorem mem_indicesToSummarize (chat : List ChatMessage) (i : Nat) :
    i ∈ indicesToSummarize chat ↔
      ∃ m : ChatMessage, chat[i]? = some m ∧ m.is_system = false ∧
        truthy m.tr_summary = false := by
  unfold indicesToSummarize
  rw [List.mem_filter, List.mem_range]
  constructor
  · rintro ⟨hlt, hp⟩
    refine ⟨chat[i], List.getElem?_eq_getElem hlt, ?_⟩
    rw [List.getElem?_eq_getElem hlt] at hp
    simpa using hp
  · rintro ⟨m, hm, hsys, hsum⟩
    obtain ⟨hlt, hget⟩ := List.getElem?_eq_some.mp hm
    refine ⟨hlt, ?_⟩
    rw [List.getElem?_eq_getElem hlt]
    simp [hget, hsys, hsum]

/-- C8 amended: `summarizeAllMessages` selects exactly the non-system
message indices lacking a summary, in strictly ascending order, and
returns the number of selected messages it processed without an
exception - which, since generation failures return an empty summary
without throwing, is the full selection count rather than the number of
messages that actually received a summary. -/
theorem summarizeAllMessages_spec (cfg : OrchCfg) (chat : List ChatMessage) :
    (∀ i : Nat, i ∈ indicesToSummarize chat ↔
      ∃ m : ChatMessage, chat[i]? = some m ∧ m.is_system = false ∧
        truthy m.tr_summary = false) ∧
    List.Pairwise (· < ·) (indicesToSummarize chat) ∧
    (summarizeAllMessages cfg chat).1 = (indicesToSummarize chat).length := by
  refine ⟨fun i => mem_indicesToSummarize chat i, ?_, ?_⟩
  · exact (List.pairwise_lt_range chat.length).filter _
  · unfold summarizeAllMessages
    have hb : ∀ i ∈ indicesToSummarize chat, i < chat.length := by
      intro i hi
      obtain ⟨m, hm, -, -⟩ := (mem_indicesToSummarize chat i).mp hi
      exact (List.getElem?_eq_some.mp hm).1
    simpa using summarizeAll_foldl_count cfg (indicesToSummarize chat) chat 0 hb

/-- C8 counterexample: on a one-message chat whose generator always
returns the empty string, `summarizeAllMessages` reports 1 although no
message received a summary. -/
theorem summarizeAllMessages_count_cex :
    (summarizeAllMessages cfgEmptyGen plainChat).1 = 1 ∧
    ((summarizeAllMessages cfgEmptyGen plainChat).2.countP fun m => truthy m.tr_summary) = 0 := by
  decide

/-- Witness for C8 at a concrete input: index 0 of the one-message chat
is selected. -/
theorem summarizeAllMessages_witness :
    0 ∈ indicesToSummarize plainChat :=
  ((summarizeAllMessages_spec cfgEmptyGen plainChat).1 0).mpr ⟨plainMsg, rfl, rfl, rfl⟩

/-- C9: editing a chapter with an in-range 1-indexed number replaces
only that chapter's summary text and leaves every stored index range
unchanged; an out-of-range number is a failure-reporting no-op for both
edit and delete; deleting an in-range chapter removes exactly that
entry, shifting the positional numbers of the later chapters while
keeping their stored ranges - in particular deleting chapter 2 of a
3-chapter timeline leaves the former chapters 1 and 3. -/
theorem chapterEditRemove_spec (tl : List Chapter) (n : Nat) (s : String) :
    (1 ≤ n → n ≤ tl.length →
      (updateChapter tl n s).1 = true ∧
      (updateChapter tl n s).2.length = tl.length ∧
      (∀ i : Nat, ((updateChapter tl n s).2[i]?.map fun c => (c.startMsgId, c.endMsgId)) =
        (tl[i]?.map fun c => (c.startMsgId, c.endMsgId))) ∧
      (∀ i : Nat, i ≠ n - 1 → (updateChapter tl n s).2[i]? = tl[i]?) ∧
      ((updateChapter tl n s).2[n - 1]?.map fun c => c.summary) =
        (tl[n - 1]?.map fun _ => s)) ∧
    (n = 0 ∨ tl.length < n →
      updateChapter tl n s = (false, tl) ∧ removeChapter tl n = (none, tl)) ∧
    (1 ≤ n → n ≤ tl.length →
      (removeChapter tl n).1 = tl[n - 1]? ∧
      (removeChapter tl n).2.length + 1 = tl.length ∧
      (∀ i : Nat, i < n - 1 → (removeChapter tl n).2[i]? = tl[i]?) ∧
      (∀ i : Nat, n - 1 ≤ i → (removeChapter tl n).2[i]? = tl[i + 1]?)) ∧
    removeChapter tl3 2 = (some ch2, [ch1, ch3]) := by
  refine ⟨?_, ?_, ?_, by decide⟩
  · intro h1 h2
    have hcond : ¬ (n < 1 ∨ tl.length < n) := by omega
    unfold updateChapter
    rw [if_neg hcond]
    refine ⟨rfl, List.length_modify _ _ _, ?_, ?_, ?_⟩
    · intro i
      rw [List.getElem?_modify]
      cases tl[i]? with
      | none => rfl
      | some c =>
        by_cases hi : n - 1 = i <;> simp [hi]
    · intro i hi
      rw [List.getElem?_modify]
      cases tl[i]? with
      | none => rfl
      | some c =>
        have : n - 1 ≠ i := fun hc => hi hc.symm
        simp [this]
    · rw [List.getElem?_modify]
      have hlt : n - 1 < tl.length := by omega
      rw [List.getElem?_eq_getElem hlt]
      simp
  · intro h
    have hcond : n < 1 ∨ tl.length < n := by omega
    unfold updateChapter removeChapter
    rw [if_pos hcond, if_pos hcond]
    exact ⟨rfl, rfl⟩
  · intro h1 h2
    have hcond : ¬ (n < 1 ∨ tl.length < n) := by omega
    unfold removeChapter
    rw [if_neg hcond]
    refine ⟨rfl, ?_, ?_, ?_⟩
    · have hlt : n - 1 < tl.length := by omega
      rw [List.length_eraseIdx, if_pos hlt]
      omega
    · intro i hi
      rw [List.getElem?_eraseIdx, if_pos hi]
    · intro i hi
      rw [List.getElem?_eraseIdx, if_neg (by omega)]

/-- Witness for C9 at a concrete input: editing and deleting chapter 2
of the three-chapter timeline. -/
theorem chapterEditRemove_witness :
    (updateChapter tl3 2 "edited").1 = true ∧ (removeChapter tl3 2).2.length + 1 = tl3.length :=
  ⟨((chapterEditRemove_spec tl3 2 "edited").1 (by decide) (by decide)).1,
   ((chapterEditRemove_spec tl3 2 "edited").2.2.1 (by decide) (by decide)).2.1⟩

/-- C10: `addChapter` appends one chapter and returns the new count;
afterwards the count has grown by one and reading the returned chapter
number gives back exactly the stored summary and range. -/
theorem addChapter_roundTrip (tl : List Chapter) (s : String) (a b : Nat) :
    (addChapter tl s a b).1 = tl.length + 1 ∧
    getChapterCount (addChapter tl s a b).2 = getChapterCount tl + 1 ∧
    getChapter (addChapter tl s a b).2 (addChapter tl s a b).1 =
      some { summary := s, startMsgId := a, endMsgId := b, number := tl.length + 1 } := by
  refine ⟨by simp [addChapter], by simp [addChapter, getChapterCount], ?_⟩
  unfold getChapter addChapter
  have hlen : (tl ++ [({ summary := s, startMsgId := a, endMsgId := b } : Chapter)]).length =
      tl.length + 1 := by simp
  simp only [hlen]
  rw [if_neg (by omega)]
  simp [List.getElem?_concat_length]

/-- Membership through the stable descending insertion. -/
theorem mem_insertDesc {α : Type} (key : α → ℚ) (x : α) (l : List α) (y : α) :
    y ∈ insertDesc key x l ↔ y = x ∨ y ∈ l := by
  induction l with
  | nil => simp [insertDesc]
  | cons z zs ih =>
    unfold insertDesc
    split
    · simp [List.mem_cons]
    · simp only [List.mem_cons, ih]
      tauto

/-- Stable descending insertion preserves descending sortedness. -/
theorem pairwise_insertDesc {α : Type} (key : α → ℚ) (x : α) (l : List α)
    (hl : l.Pairwise fun a b => key b ≤ key a) :
    (insertDesc key x l).Pairwise fun a b => key b ≤ key a := by
  induction l with
  | nil => simp [insertDesc]
  | cons z zs ih =>
    rcases List.pairwise_cons.mp hl with ⟨hz, hzs⟩
    unfold insertDesc
    split
    · rename_i hlt
      refine List.pairwise_cons.mpr ⟨?_, hl⟩
      intro b hb
      rcases List.mem_cons.mp hb with rfl | hb'
      · exact le_of_lt hlt
      · exact le_trans (hz b hb') (le_of_lt hlt)
    · rename_i hlt
      refine List.pairwise_cons.mpr ⟨?_, ih hzs⟩
      intro b hb
      rcases (mem_insertDesc key x zs b).mp hb with rfl | hb'
      · exact not_lt.mp hlt
      · exact hz b hb'

/-- Membership through the accumulating sort loop. -/
theorem mem_sortByDesc_aux {α : Type} (key : α → ℚ) :
    ∀ (l acc : List α) (y : α),
      (y ∈ l.foldl (fun acc x => insertDesc key x acc) acc ↔ y ∈ acc ∨ y ∈ l) := by
  intro l
  induction l with
  | nil => simp
  | cons x xs ih =>
    intro acc y
    simp only [List.foldl_cons]
    rw [ih, mem_insertDesc, List.mem_cons]
    tauto

/-- The accumulating sort loop keeps the list sorted descending. -/
theorem pairwise_sortByDesc_aux {α : Type} (key : α → ℚ) :
    ∀ (l acc : List α),
      acc.Pairwise (fun a b => key b ≤ key a) →
      (l.foldl (fun acc x => insertDesc key x acc) acc).Pairwise fun a b => key b ≤ key a := by
  intro l
  induction l with
  | nil => intro acc h; exact h
  | cons x xs ih =>
    intro acc h
    exact ih _ (pairwise_insertDesc key x acc h)

/-- Membership is invariant under the stable descending sort. -/
theorem mem_sortByDesc {α : Type} (key : α → ℚ) (l : List α) (y : α) :
    y ∈ sortByDesc key l ↔ y ∈ l := by
  unfold sortByDesc
  rw [mem_sortByDesc_aux]
  simp

/-- The stable descending sort is sorted descending. -/
theorem pairwise_sortByDesc {α : Type} (key : α → ℚ) (l : List α) :
    (sortByDesc key l).Pairwise fun a b => key b ≤ key a :=
  pairwise_sortByDesc_aux key l [] (by simp)

/-- Every pair surviving the scoring pipeline carries the score of its
memory. -/
theorem retrieveScored_snd_eq (cfg : RetrievalCfg) (cache : List Memory)
    (queryWords : List String) (p : Memory × ℚ)
    (hp : p ∈ sortByDesc (fun q : Memory × ℚ => q.2)
      ((cache.map fun memory => (memory, memoryScore cfg.now queryWords memory)).filter
        fun s => decide (0 < s.2))) :
    p.2 = memoryScore cfg.now queryWords p.1 ∧ 0 < p.2 := by
  rw [mem_sortByDesc] at hp
  obtain ⟨hmem, hpos⟩ := List.mem_filter.mp hp
  obtain ⟨mem, hmemc, hpeq⟩ := List.mem_map.mp hmem
  constructor
  · rw [← hpeq]
  · exact of_decide_eq_true hpos

/-- Every retrieved memory has a strictly positive score. -/
theorem retrieveScored_pos (cfg : RetrievalCfg) (cache : List Memory)
    (queryWords : List String) (m : Memory)
    (hm : m ∈ retrieveScored cfg cache queryWords) :
    0 < memoryScore cfg.now queryWords m := by
  unfold retrieveScored at hm
  obtain ⟨p, hp, rfl⟩ := List.mem_map.mp hm
  have hp' := (List.take_sublist _ _).subset hp
  obtain ⟨heq, hpos⟩ := retrieveScored_snd_eq cfg cache queryWords p hp'
  rw [← heq]
  exact hpos

/-- The retrieved memories are in descending score order. -/
theorem retrieveScored_sorted (cfg : RetrievalCfg) (cache : List Memory)
    (queryWords : List String) :
    (retrieveScored cfg cache queryWords).Pairwise fun m1 m2 =>
      memoryScore cfg.now queryWords m2 ≤ memoryScore cfg.now queryWords m1 := by
  unfold retrieveScored
  rw [List.pairwise_map]
  have hsorted := pairwise_sortByDesc (fun q : Memory × ℚ => q.2)
    ((cache.map fun memory => (memory, memoryScore cfg.now queryWords memory)).filter
      fun s => decide (0 < s.2))
  have htake := List.Pairwise.sublist (List.take_sublist cfg.max_retrieved_memories _) hsorted
  refine List.Pairwise.imp_of_mem ?_ htake
  intro a b ha hb hR
  have ha' := (List.take_sublist _ _).subset ha
  have hb' := (List.take_sublist _ _).subset hb
  rw [← (retrieveScored_snd_eq cfg cache queryWords a ha').1,
    ← (retrieveScored_snd_eq cfg cache queryWords b hb').1]
  exact hR

/-- At most `max_retrieved_memories` memories are retrieved. -/
theorem retrieveScored_length (cfg : RetrievalCfg) (cache : List Memory)
    (queryWords : List String) :
    (retrieveScored cfg cache queryWords).length ≤ cfg.max_retrieved_memories := by
  unfold retrieveScored
  simp only [List.length_map, List.length_take]
  exact min_le_left _ _

/-- With LLM query generation disabled, the resolved query for a missing
query text is the most recent visible user message. -/
theorem effectiveQuery_none (cfg : RetrievalCfg) (chat : List ChatMessage)
    (hllm : cfg.enable_llm_retrieval = false) :
    effectiveQuery cfg chat none =
      match lastUserMes chat with
      | some mes => some mes
      | none => none := by
  unfold effectiveQuery
  simp [hllm, truthy]

/-- With LLM query generation disabled, an explicitly supplied query
that equals the fallback body resolves to itself. -/
theorem effectiveQuery_some_of_lastUser (cfg : RetrievalCfg) (chat : List ChatMessage)
    (b : String) (hllm : cfg.enable_llm_retrieval = false) (hl : lastUserMes chat = some b) :
    effectiveQuery cfg chat (some b) = some b := by
  unfold effectiveQuery
  by_cases hb : b.isEmpty
  · simp [hllm, truthy, hb, hl]
  · simp [hllm, truthy, hb]

/-- Resolution of the retrieval call to the scoring pipeline when the
resolved query is non-empty. -/
theorem retrieveRelevantMemories_eq_scored (cfg : RetrievalCfg) (cache : List Memory)
    (chat : List ChatMessage) (q : Option String) (qs : String)
    (heq : effectiveQuery cfg chat q = some qs) (hne : qs.isEmpty = false) :
    retrieveRelevantMemories cfg cache chat q =
      retrieveScored cfg cache (splitWs (jsToLower qs)) := by
  unfold retrieveRelevantMemories
  rw [heq]
  show (if qs.isEmpty = true then [] else retrieveScored cfg cache (splitWs (jsToLower qs))) = _
  rw [hne]
  simp

/-- Resolution of the retrieval call to the empty result when no query
could be determined. -/
theorem retrieveRelevantMemories_eq_nil_none (cfg : RetrievalCfg) (cache : List Memory)
    (chat : List ChatMessage) (q : Option String)
    (heq : effectiveQuery cfg chat q = none) :
    retrieveRelevantMemories cfg cache chat q = [] := by
  unfold retrieveRelevantMemories
  rw [heq]

/-- Resolution of the retrieval call to the empty result when the
resolved query is the empty string. -/
theorem retrieveRelevantMemories_eq_nil_empty (cfg : RetrievalCfg) (cache : List Memory)
    (chat : List ChatMessage) (q : Option String) (qs : String)
    (heq : effectiveQuery cfg chat q = some qs) (hqs : qs.isEmpty = true) :
    retrieveRelevantMemories cfg cache chat q = [] := by
  unfold retrieveRelevantMemories
  rw [heq]
  show (if qs.isEmpty = true then [] else retrieveScored cfg cache (splitWs (jsToLower qs))) = _
  rw [hqs]
  simp

/-- C4 amended: with LLM query generation disabled, every retrieved
memory has a strictly positive score (the multiplicity count of query
words of length ≥ 3 occurring in the summary minus one tenth per day of
age), the result is sorted by descending score, at most
`max_retrieved_memories` entries are returned, and a missing query falls
back to the most recent visible user message's body. -/
theorem retrieveRelevantMemories_spec (cfg : RetrievalCfg) (cache : List Memory)
    (chat : List ChatMessage) (hllm : cfg.enable_llm_retrieval = false) :
    (∀ (q : Option String) (m : Memory), m ∈ retrieveRelevantMemories cfg cache chat q →
      ∃ qs : String, effectiveQuery cfg chat q = some qs ∧ qs.isEmpty = false ∧
        0 < memoryScore cfg.now (splitWs (jsToLower qs)) m) ∧
    (∀ (q : Option String) (qs : String), effectiveQuery cfg chat q = some qs →
      qs.isEmpty = false →
      (retrieveRelevantMemories cfg cache chat q).Pairwise fun m1 m2 =>
        memoryScore cfg.now (splitWs (jsToLower qs)) m2 ≤
          memoryScore cfg.now (splitWs (jsToLower qs)) m1) ∧
    (∀ q : Option String,
      (retrieveRelevantMemories cfg cache chat q).length ≤ cfg.max_retrieved_memories) ∧
    (retrieveRelevantMemories cfg cache chat none =
      match lastUserMes chat with
      | some b => retrieveRelevantMemories cfg cache chat (some b)
      | none => []) := by
  refine ⟨?_, ?_, ?_, ?_⟩
  · intro q m hm
    cases heq : effectiveQuery cfg chat q with
    | none =>
      rw [retrieveRelevantMemories_eq_nil_none cfg cache chat q heq] at hm
      simp at hm
    | some qs =>
      cases hqs : qs.isEmpty with
      | true =>
        rw [retrieveRelevantMemories_eq_nil_empty cfg cache chat q qs heq hqs] at hm
        simp at hm
      | false =>
        rw [retrieveRelevantMemories_eq_scored cfg cache chat q qs heq hqs] at hm
        exact ⟨qs, rfl, hqs, retrieveScored_pos cfg cache _ m hm⟩
  · intro q qs heq hne
    rw [retrieveRelevantMemories_eq_scored cfg cache chat q qs heq hne]
    exact retrieveScored_sorted cfg cache _
  · intro q
    cases heq : effectiveQuery cfg chat q with
    | none =>
      rw [retrieveRelevantMemories_eq_nil_none cfg cache chat q heq]
      simp
    | some qs =>
      cases hqs : qs.isEmpty with
      | true =>
        rw [retrieveRelevantMemories_eq_nil_empty cfg cache chat q qs heq hqs]
        simp
      | false =>
        rw [retrieveRelevantMemories_eq_scored cfg cache chat q qs heq hqs]
        exact retrieveScored_length cfg cache _
  · cases hl : lastUserMes chat with
    | none =>
      simp only [hl]
      exact retrieveRelevantMemories_eq_nil_none cfg cache chat none
        (by rw [effectiveQuery_none cfg chat hllm, hl])
    | some b =>
      have h1 : effectiveQuery cfg chat none = some b := by
        rw [effectiveQuery_none cfg chat hllm, hl]
      have h2 : effectiveQuery cfg chat (some b) = some b :=
        effectiveQuery_some_of_lastUser cfg chat b hllm hl
      simp only [hl]
      cases hb : b.isEmpty with
      | true =>
        rw [retrieveRelevantMemories_eq_nil_empty cfg cache chat none b h1 hb,
          retrieveRelevantMemories_eq_nil_empty cfg cache chat (some b) b h2 hb]
      | false =>
        rw [retrieveRelevantMemories_eq_scored cfg cache chat none b h1 hb,
          retrieveRelevantMemories_eq_scored cfg cache chat (some b) b h2 hb]

/-- Source score of the "cat" entry for the query "big big cat": one
match, no age penalty. -/
theorem memoryScore_memA : memoryScore 0 ["big", "big", "cat"] memA = 1 := by
  unfold memoryScore
  rw [show memoryMatchCount ["big", "big", "cat"] memA = 1 from by decide]
  norm_num [memA]

/-- Source score of the "big" entry for the query "big big cat": the
word "big" occurs twice in the query and is counted twice. -/
theorem memoryScore_memB : memoryScore 0 ["big", "big", "cat"] memB = 2 := by
  unfold memoryScore
  rw [show memoryMatchCount ["big", "big", "cat"] memB = 2 from by decide]
  norm_num [memB]

/-- Distinct-word score of the "cat" entry for the query "big big cat". -/
theorem claimScoreDistinct_memA : claimScoreDistinct 0 ["big", "big", "cat"] memA = 1 := by
  unfold claimScoreDistinct
  rw [show claimMatchCountDistinct ["big", "big", "cat"] memA = 1 from by decide]
  norm_num [memA]

/-- Distinct-word score of the "big" entry for the query "big big cat". -/
theorem claimScoreDistinct_memB : claimScoreDistinct 0 ["big", "big", "cat"] memB = 1 := by
  unfold claimScoreDistinct
  rw [show claimMatchCountDistinct ["big", "big", "cat"] memB = 1 from by decide]
  norm_num [memB]

/-- C4 counterexample: for the query "big big cat" over the entries
"cat" and "big" (same age), the source counts the duplicated query word
twice and returns the "big" entry first, while the claim's
distinct-word scoring ties the entries and (stable order) returns the
"cat" entry first. -/
theorem retrieveRelevantMemories_distinct_cex :
    retrieveRelevantMemories cexRetCfg [memA, memB] [] (some "big big cat") = [memB, memA] ∧
    claimRetrieveDistinct cexRetCfg [memA, memB] [] (some "big big cat") = [memA, memB] := by
  constructor
  · rw [retrieveRelevantMemories_eq_scored cexRetCfg [memA, memB] [] (some "big big cat")
      "big big cat" rfl rfl]
    rw [show splitWs (jsToLower "big big cat") = ["big", "big", "cat"] from by decide]
    unfold retrieveScored
    simp only [List.map_cons, List.map_nil]
    rw [show cexRetCfg.now = 0 from rfl, memoryScore_memA, memoryScore_memB]
    decide
  · show ((sortByDesc (fun p : Memory × ℚ => p.2)
      (([(memA, claimScoreDistinct 0 ["big", "big", "cat"] memA),
         (memB, claimScoreDistinct 0 ["big", "big", "cat"] memB)]).filter
        fun s => decide (0 < s.2))).take 5).map Prod.fst = [memA, memB]
    rw [claimScoreDistinct_memA, claimScoreDistinct_memB]
    decide

/-- Witness for C4 at a concrete input: the fallback conjunct on a chat
whose last visible user message is "dragon". -/
theorem retrieveRelevantMemories_witness :
    retrieveRelevantMemories cexRetCfg [memA, memB] witChat none =
      (match lastUserMes witChat with
       | some b => retrieveRelevantMemories cexRetCfg [memA, memB] witChat (some b)
       | none => []) :=
  (retrieveRelevantMemories_spec cexRetCfg [memA, memB] witChat rfl).2.2.2
